import Mathlib

/-!
Verification development for the web-to-rag transcript-acquisition services:
a shallow embedding of the two FastAPI applications
(`infrastructure/docker/yt-dlp/app.py` and `infrastructure/docker/whisper/app.py`)
together with proofs about them.

Strings manipulated by the Python code are modelled as Lean `String`s
(lists of characters); external effects (subprocess invocations, the
filesystem, HTTP downloads, the speech-recognition model) are modelled as
explicit environment records describing the outcome of each external call,
and raised Python exceptions that escape an endpoint are modelled with
`Except.error`.
-/

/- ============================================================
   Basic character / list utilities shared by both services
   ============================================================ -/

/-- Whitespace characters recognised by Python `str.strip` / `str.split`
(restricted to the ASCII whitespace characters). -/
def isPyWs (c : Char) : Bool :=
  c = ' ' || c = '\t' || c = '\n' || c = '\r' || c = '\x0b' || c = '\x0c'

/-- Characters of the regex class `[a-zA-Z0-9_-]` used by `extract_video_id`. -/
def isIdChar (c : Char) : Bool :=
  c.isAlpha || c.isDigit || c = '_' || c = '-'

/-- Split a character list on newline characters, as Python's line
splitting does (an empty input yields one empty line). -/
def splitLines : List Char → List (List Char)
  | [] => [[]]
  | c :: rest =>
    match splitLines rest with
    | [] => [[]]
    | line :: lines =>
      if c = '\n' then [] :: line :: lines else (c :: line) :: lines

/-- Accumulator-based scanner splitting a character list into maximal runs
of non-whitespace characters; `acc` holds the current run reversed. -/
def wordsAcc (acc : List Char) : List Char → List (List Char)
  | [] => if acc = [] then [] else [acc.reverse]
  | c :: rest =>
    if isPyWs c then
      if acc = [] then wordsAcc [] rest else acc.reverse :: wordsAcc [] rest
    else wordsAcc (c :: acc) rest

/-- Whitespace-separated words of a character list: maximal runs of
non-whitespace characters, in order (Python `str.split()`). -/
def words (l : List Char) : List (List Char) :=
  wordsAcc [] l

/-- Join token lists with single spaces (Python `" ".join`). -/
def joinSp : List (List Char) → List Char
  | [] => []
  | [t] => t
  | t :: t2 :: ts => t ++ ' ' :: joinSp (t2 :: ts)

/-- Concatenate a list of token lists. -/
def cat {α : Type} : List (List α) → List α
  | [] => []
  | x :: xs => x ++ cat xs

/-- Python `str.strip()` on a character list: drop leading and trailing
whitespace. -/
def stripChars (l : List Char) : List Char :=
  ((l.dropWhile isPyWs).reverse.dropWhile isPyWs).reverse

/-- Python `str.strip()` on a string. -/
def pyStrip (s : String) : String :=
  String.mk (stripChars s.toList)

/-- Substring test on character lists (Python `pat in hay`). -/
def listHasSub (pat : List Char) : List Char → Bool
  | [] => decide (pat = [])
  | c :: rest => pat.isPrefixOf (c :: rest) || listHasSub pat rest

/-- Substring test on strings (Python `pat in s`). -/
def strContains (s pat : String) : Bool :=
  listHasSub pat.toList s.toList

/-- Python `s.endswith(suf)`. -/
def strEndsWith (s suf : String) : Bool :=
  suf.toList.isSuffixOf s.toList

/- ============================================================
   CaptionNormalizer (clean_vtt_content)
   ============================================================ -/

/-- Modes of the tag-stripping scanner: outside any tag, inside a
bracketed `[...]` tag, inside an inline `<...>` styling tag. -/
inductive TagMode where
  | text
  | sq
  | ang
deriving DecidableEq

/-- Left-to-right scan removing bracketed `[...]` tags and inline `<...>`
styling markers from a cue text line. -/
def stripTagsAux (m : TagMode) : List Char → List Char
  | [] => []
  | c :: rest =>
    match m with
    | .text =>
      if c = '[' then stripTagsAux .sq rest
      else if c = '<' then stripTagsAux .ang rest
      else c :: stripTagsAux .text rest
    | .sq => if c = ']' then stripTagsAux .text rest else stripTagsAux .sq rest
    | .ang => if c = '>' then stripTagsAux .text rest else stripTagsAux .ang rest

/-- Strip bracketed tags and inline styling markers. -/
def stripTags (l : List Char) : List Char :=
  stripTagsAux .text l

/-- The timing-line separator token `-->` of the cue format. -/
def arrowTok : List Char := ['-', '-', '>']

/-- Decide whether a line (given as its word tokens) is dropped by the
normalizer: blank lines, the `WEBVTT` header, `NOTE`/`STYLE` blocks,
timing lines (containing the `-->` separator) and cue-numbering lines
(a single all-digit token). -/
def dropLine (ts : List (List Char)) : Bool :=
  match ts with
  | [] => true
  | t :: rest =>
    decide (t = "WEBVTT".toList ∨ t = "NOTE".toList ∨ t = "STYLE".toList
      ∨ arrowTok ∈ t :: rest
      ∨ (rest = [] ∧ t.all Char.isDigit = true))

/-- Rolling-caption deduplication against the original previous cue: a
later cue whose tokens extend the previous cue's tokens keeps only the
incremental new tokens. -/
def dedupAux (prev : List (List Char)) : List (List (List Char)) → List (List (List Char))
  | [] => []
  | y :: rest =>
    (if prev.isPrefixOf y then y.drop prev.length else y) :: dedupAux y rest

/-- Deduplicate consecutive cues (rolling-caption artifact collapse). -/
def dedupCues : List (List (List Char)) → List (List (List Char))
  | [] => []
  | x :: rest => x :: dedupAux x rest

/-- Tokens of one line after tag stripping. -/
def lineToks (ln : List Char) : List (List Char) :=
  words (stripTags ln)

/-- Token lists of the lines that survive the header/timing/number filter. -/
def keptLines (l : List Char) : List (List (List Char)) :=
  ((splitLines l).map lineToks).filter (fun ts => !dropLine ts)

/-- All surviving tokens of a document, after deduplication, in order. -/
def allToks (l : List Char) : List (List Char) :=
  cat (dedupCues (keptLines l))

/-- Core of the caption normalizer on character lists. -/
def cleanL (l : List Char) : List Char :=
  joinSp (allToks l)

/-- Modelled from the spec: the function `clean_vtt_content` of
`utils/vtt_cleaner.py`, which is imported by the yt-dlp service but whose
source is not part of this repository snapshot. Following the spec's
CaptionNormalizer contract: split the cue document into lines, ignore
header/style blocks, cue-numbering lines and timing lines, strip bracketed
tags and inline styling markers, collapse rolling-caption duplication
between consecutive cues (keeping only the incremental new text), join the
surviving text with single spaces and collapse repeated whitespace;
best-effort on malformed input, never failing. -/
def clean_vtt_content (s : String) : String :=
  String.mk (cleanL s.toList)

/- ============================================================
   ContentIdentifier Resolver (extract_video_id)
   ============================================================ -/

/-- Capture of `[a-zA-Z0-9_-]{11}`: succeeds iff the next 11 characters
all belong to the class, returning them. -/
def capture11 (cs : List Char) : Option (List Char) :=
  let t := cs.take 11
  if t.length = 11 ∧ t.all isIdChar = true then some t else none

/-- Try a fixed prefix at the current position, then capture 11 identifier
characters. -/
def tryPrefixAt (pre : List Char) (cs : List Char) : Option (List Char) :=
  if cs.take pre.length = pre then capture11 (cs.drop pre.length) else none

/-- Match of the first pattern `(?:v=|/v/|youtu\.be/)([a-zA-Z0-9_-]{11})`
anchored at the current position (alternatives in regex order). -/
def pat1At (cs : List Char) : Option (List Char) :=
  match tryPrefixAt ['v', '='] cs with
  | some t => some t
  | none =>
    match tryPrefixAt ['/', 'v', '/'] cs with
    | some t => some t
    | none => tryPrefixAt "youtu.be/".toList cs

/-- Match of the second pattern `(?:embed/)([a-zA-Z0-9_-]{11})` anchored at
the current position. -/
def pat2At (cs : List Char) : Option (List Char) :=
  tryPrefixAt "embed/".toList cs

/-- `re.search`: try the position matcher at every position, left to
right, returning the first capture. -/
def searchAt (f : List Char → Option (List Char)) : List Char → Option (List Char)
  | [] => f []
  | c :: rest =>
    match f (c :: rest) with
    | some t => some t
    | none => searchAt f rest

/-- The anchored third pattern `^([a-zA-Z0-9_-]{11})$`. -/
def pat3 (cs : List Char) : Option (List Char) :=
  if cs.length = 11 ∧ cs.all isIdChar = true then some cs else none

/-- `extract_video_id` of the yt-dlp service: try the three regex patterns
in order; `none` models the raised `ValueError`. -/
def extract_video_id (url : String) : Option String :=
  match searchAt pat1At url.toList with
  | some t => some (String.mk t)
  | none =>
    match searchAt pat2At url.toList with
    | some t => some (String.mk t)
    | none => (pat3 url.toList).map String.mk

/- ============================================================
   External-effect modelling shared by both services
   ============================================================ -/

/-- Outcome of a Python call: either it raised an exception carrying a
message, or it returned a value. -/
inductive PyResult (α : Type) where
  | raised (msg : String)
  | ok (a : α)
deriving DecidableEq

/-- Outcome of creating and filling a named temporary file: failure before
the file exists, failure after the file was created, or success. -/
inductive CreateOutcome where
  | failNoFile (msg : String)
  | failWithFile (msg : String)
  | ok
deriving DecidableEq

/-- The filesystem, as the list of existing paths. -/
structure FS where
  files : List String
deriving DecidableEq

/-- Existence test (`os.path.exists`). -/
def FS.has (fs : FS) (p : String) : Bool :=
  fs.files.contains p

/-- File creation. -/
def addFile (fs : FS) (p : String) : FS :=
  ⟨p :: fs.files⟩

/-- File deletion (`os.unlink`). -/
def removeFile (fs : FS) (p : String) : FS :=
  ⟨fs.files.filter (fun q => q != p)⟩

/-- The `finally:` block of the whisper endpoints: unlink the temp file if
it was created and still exists. -/
def cleanupTemp (fs : FS) (p : String) : FS :=
  if fs.has p then removeFile fs p else fs

/- ============================================================
   yt-dlp service: /youtube/transcript and /youtube/audio
   ============================================================ -/

/-- Request body of `POST /youtube/transcript`. -/
structure YouTubeRequest where
  url : String
  language : String
  prefer_manual : Bool
deriving DecidableEq

/-- Response body of `POST /youtube/transcript`. -/
structure YouTubeResponse where
  success : Bool
  video_id : String
  title : Option String
  transcript : Option String
  source : Option String
  language : String
  duration : Option Int
  error : Option String
deriving DecidableEq

/-- Environment of one `/youtube/transcript` request: outcomes of the
metadata fetch (all of whose failure modes are swallowed, leaving the
title/duration fields absent), the manual-caption fetch and the
auto-caption fetch. The `Exit` fields model the subprocess return codes,
which this endpoint ignores; the `File` fields give the content of the
caption file if one exists after the corresponding fetch. -/
structure TransEnv where
  metaTitle : Option String
  metaDuration : Option Int
  manualTimedOut : Bool
  manualExit : Int
  manualFile : Option String
  autoTimedOut : Bool
  autoExit : Int
  autoFile : Option String
deriving DecidableEq

/-- The error message returned when no captions exist. -/
def noSubsMsg : String :=
  "No subtitles available. Use whisper-server for audio transcription."

/-- The auto-generated-captions attempt of `/youtube/transcript`. -/
def tryAutoStep (req : YouTubeRequest) (env : TransEnv) (vid : String) :
    Except String YouTubeResponse :=
  if env.autoTimedOut then Except.error "subprocess.TimeoutExpired"
  else
    match env.autoFile with
    | some doc =>
      Except.ok { success := true, video_id := vid, title := env.metaTitle,
                  transcript := some (clean_vtt_content doc), source := some "auto-generated",
                  language := req.language, duration := env.metaDuration, error := none }
    | none =>
      Except.ok { success := false, video_id := vid, title := env.metaTitle,
                  transcript := none, source := none,
                  language := req.language, duration := env.metaDuration, error := some noSubsMsg }

/-- The `POST /youtube/transcript` endpoint. An `Except.error` result
models a raised exception escaping the endpoint function (the code wraps
neither caption-fetch `subprocess.run` call in a `try`, so a
`subprocess.TimeoutExpired` raised there propagates). -/
def extract_youtube_transcript (req : YouTubeRequest) (env : TransEnv) :
    Except String YouTubeResponse :=
  match extract_video_id req.url with
  | none =>
    Except.ok { success := false, video_id := "", title := none, transcript := none,
                source := none, language := req.language, duration := none,
                error := some ("Could not extract video ID from: " ++ req.url) }
  | some vid =>
    if req.prefer_manual then
      if env.manualTimedOut then Except.error "subprocess.TimeoutExpired"
      else
        match env.manualFile with
        | some doc =>
          Except.ok { success := true, video_id := vid, title := env.metaTitle,
                      transcript := some (clean_vtt_content doc), source := some "manual",
                      language := req.language, duration := env.metaDuration, error := none }
        | none => tryAutoStep req env vid
    else tryAutoStep req env vid

/-- The deterministic audio cache path for a video identifier. -/
def audioCachePath (vid : String) : String :=
  "/app/temp/" ++ vid ++ ".mp3"

/-- Environment of one `/youtube/audio` request: outcome of the yt-dlp
audio download invocation. -/
structure AudioEnv where
  dlTimedOut : Bool
  dlExit : Int
  dlStderr : String
  dlCreates : Bool
deriving DecidableEq

/-- Result of `POST /youtube/audio`: either a raised `HTTPException` with
its status code and detail, or the JSON success body. -/
inductive AudioResult where
  | httpError (status : Nat) (detail : String)
  | ok (audio_path : String) (video_id : String) (cached : Bool)
deriving DecidableEq

/-- The `POST /youtube/audio` endpoint. The third component records the
timeout (in seconds) passed to the download invocation, `none` when the
download capability was never invoked. -/
def download_youtube_audio (url : String) (env : AudioEnv) (fs : FS) :
    AudioResult × FS × Option Nat :=
  match extract_video_id url with
  | none => (.httpError 400 ("Could not extract video ID from: " ++ url), fs, none)
  | some vid =>
    let output_path := audioCachePath vid
    if fs.has output_path then (.ok output_path vid true, fs, none)
    else if env.dlTimedOut then (.httpError 504 "Timeout downloading audio", fs, some 300)
    else
      let fs' := if env.dlCreates then addFile fs output_path else fs
      if env.dlExit ≠ 0 then (.httpError 500 ("yt-dlp error: " ++ env.dlStderr), fs', some 300)
      else if fs'.has output_path then (.ok output_path vid false, fs', some 300)
      else (.httpError 500 "Audio file not created", fs', some 300)

/- ============================================================
   whisper service: get_whisper_model and the transcribe endpoints
   ============================================================ -/

/-- The configured default model size (`os.getenv("WHISPER_MODEL", "base")`
with the variable unset, as in the shipped compose configuration). -/
def WHISPER_MODEL_SIZE : String := "base"

/-- A loaded `WhisperModel` instance, identified by the size it was
constructed with. -/
structure WhisperModel where
  size : String
deriving DecidableEq

/-- Python truthiness of an optional string (`None` and `""` are falsy). -/
def pyTruthy (o : Option String) : Bool :=
  match o with
  | none => false
  | some s => s != ""

/-- Python `model_size or WHISPER_MODEL_SIZE`. -/
def pyOrDefault (o : Option String) (d : String) : String :=
  match o with
  | none => d
  | some s => if s = "" then d else s

/-- `get_whisper_model` of the whisper service, as a function of the
requested size and of the module-global `whisper_model` slot; it returns
the served instance and the new value of the global. -/
def get_whisper_model (model_size : Option String) (whisper_model : Option WhisperModel) :
    WhisperModel × Option WhisperModel :=
  let size := pyOrDefault model_size WHISPER_MODEL_SIZE
  let diffRequested : Bool :=
    match model_size with
    | none => false
    | some s => s != "" && s != WHISPER_MODEL_SIZE
  if whisper_model.isSome && diffRequested then (⟨size⟩, whisper_model)
  else
    match whisper_model with
    | none => (⟨size⟩, some ⟨size⟩)
    | some m => (m, some m)

/-- Metadata reported by the recognition capability after the segment
sequence is drained. -/
structure WhisperInfo where
  language : String
  language_probability : Rat
  duration : Rat
deriving DecidableEq

/-- Response body of the whisper transcription endpoints. -/
structure TranscribeResponse where
  success : Bool
  transcript : Option String
  language : Option String
  language_probability : Option Rat
  duration : Option Rat
  model_used : String
  error : Option String
deriving DecidableEq

/-- Segment assembly shared by the transcription endpoints: each segment
text stripped, joined with single spaces. -/
def assembleTranscript (segs : List String) : String :=
  String.intercalate " " (segs.map pyStrip)

/-- The failed-response shape produced by the `except` handlers. -/
def errResp (model msg : String) : TranscribeResponse :=
  { success := false, transcript := none, language := none, language_probability := none,
    duration := none, model_used := model, error := some msg }

/-- The successful-response shape. -/
def okResp (model : String) (segs : List String) (info : WhisperInfo) : TranscribeResponse :=
  { success := true, transcript := some (assembleTranscript segs),
    language := some info.language, language_probability := some info.language_probability,
    duration := some info.duration, model_used := model, error := none }

/-- Environment of one `POST /transcribe` (upload) request: the name given
to the temporary file, and the outcomes of temp-file creation, of
`get_whisper_model` and of the recognition call (its drained segment
texts and final metadata on success). -/
structure WhisperEnv where
  tmpName : String
  create : CreateOutcome
  getModel : PyResult Unit
  transcribe : PyResult (List String × WhisperInfo)
deriving DecidableEq

/-- The `POST /transcribe` (upload) endpoint: the whole body is wrapped in
`try/except Exception`, so every failure becomes a `success=false`
response; the `finally` block unlinks the temp file when it was created
and exists. -/
def transcribe_audio (model : String) (language : Option String) (env : WhisperEnv) (fs : FS) :
    TranscribeResponse × FS :=
  match env.create with
  | .failNoFile msg => (errResp model msg, fs)
  | .failWithFile msg => (errResp model msg, cleanupTemp (addFile fs env.tmpName) env.tmpName)
  | .ok =>
    match env.getModel with
    | .raised msg => (errResp model msg, cleanupTemp (addFile fs env.tmpName) env.tmpName)
    | .ok _ =>
      match env.transcribe with
      | .raised msg => (errResp model msg, cleanupTemp (addFile fs env.tmpName) env.tmpName)
      | .ok (segs, info) =>
        (okResp model segs info, cleanupTemp (addFile fs env.tmpName) env.tmpName)

/-- Request body of `POST /transcribe/url`. -/
structure TranscribeUrlRequest where
  url : String
  language : Option String
  model : String
deriving DecidableEq

/-- Temp-file suffix selection of `/transcribe/url`, from the response
content type and the request URL. -/
def chooseSuffix (contentType url : String) : String :=
  if strContains contentType "mp3" || strEndsWith url ".mp3" then ".mp3"
  else if strContains contentType "wav" || strEndsWith url ".wav" then ".wav"
  else if strContains contentType "m4a" || strEndsWith url ".m4a" then ".m4a"
  else ".mp3"

/-- Environment of one `POST /transcribe/url` request: the outcome of the
HTTP download (a raised `httpx.HTTPError` or the content type and body),
the random base name of the temporary file, and the remaining outcomes as
for `/transcribe`. -/
structure UrlEnv where
  tmpBase : String
  download : PyResult (String × String)
  create : CreateOutcome
  getModel : PyResult Unit
  transcribe : PyResult (List String × WhisperInfo)
deriving DecidableEq

/-- The `POST /transcribe/url` endpoint. -/
def transcribe_from_url (req : TranscribeUrlRequest) (env : UrlEnv) (fs : FS) :
    TranscribeResponse × FS :=
  match env.download with
  | .raised msg => (errResp req.model ("Failed to download audio: " ++ msg), fs)
  | .ok (contentType, _body) =>
    let tmp := env.tmpBase ++ chooseSuffix contentType req.url
    match env.create with
    | .failNoFile msg => (errResp req.model msg, fs)
    | .failWithFile msg => (errResp req.model msg, cleanupTemp (addFile fs tmp) tmp)
    | .ok =>
      match env.getModel with
      | .raised msg => (errResp req.model msg, cleanupTemp (addFile fs tmp) tmp)
      | .ok _ =>
        match env.transcribe with
        | .raised msg => (errResp req.model msg, cleanupTemp (addFile fs tmp) tmp)
        | .ok (segs, info) =>
          (okResp req.model segs info, cleanupTemp (addFile fs tmp) tmp)

/-- Environment of one `POST /transcribe/file-path` request. -/
structure PathEnv where
  fileExists : Bool
  getModel : PyResult Unit
  transcribe : PyResult (List String × WhisperInfo)
deriving DecidableEq

/-- The `POST /transcribe/file-path` endpoint. -/
def transcribe_from_path (file_path : String) (model : String) (env : PathEnv) :
    TranscribeResponse :=
  if !env.fileExists then errResp model ("File not found: " ++ file_path)
  else
    match env.getModel with
    | .raised msg => errResp model msg
    | .ok _ =>
      match env.transcribe with
      | .raised msg => errResp model msg
      | .ok (segs, info) => okResp model segs info

/- ============================================================
   Lemmas about the word splitter
   ============================================================ -/

theorem takeWhile_of_all {p : Char → Bool} :
    ∀ l : List Char, (∀ c ∈ l, p c = true) → l.takeWhile p = l := by
  intro l h
  induction l with
  | nil => rfl
  | cons c rest ih =>
    have hc := h c (by simp)
    have ih' := ih fun d hd => h d (by simp [hd])
    simp [List.takeWhile_cons, hc, ih']

theorem dropWhile_of_all {p : Char → Bool} :
    ∀ l : List Char, (∀ c ∈ l, p c = true) → l.dropWhile p = [] := by
  intro l h
  induction l with
  | nil => rfl
  | cons c rest ih =>
    have hc := h c (by simp)
    have ih' := ih fun d hd => h d (by simp [hd])
    simp [List.dropWhile_cons, hc, ih']

theorem takeWhile_append_of_all {p : Char → Bool} :
    ∀ (t r : List Char), (∀ c ∈ t, p c = true) →
      (t ++ r).takeWhile p = t ++ r.takeWhile p := by
  intro t
  induction t with
  | nil => intro r _; rfl
  | cons c t' ih =>
    intro r h
    have hc := h c (by simp)
    have ih' := ih r fun d hd => h d (by simp [hd])
    simp [List.cons_append, List.takeWhile_cons, hc, ih']

theorem dropWhile_append_of_all {p : Char → Bool} :
    ∀ (t r : List Char), (∀ c ∈ t, p c = true) →
      (t ++ r).dropWhile p = r.dropWhile p := by
  intro t
  induction t with
  | nil => intro r _; rfl
  | cons c t' ih =>
    intro r h
    have hc := h c (by simp)
    have ih' := ih r fun d hd => h d (by simp [hd])
    simp [List.cons_append, List.dropWhile_cons, hc, ih']

theorem words_cons_ws {c : Char} (l : List Char) (h : isPyWs c = true) :
    words (c :: l) = words l := by
  simp [words, wordsAcc, h]

theorem wordsAcc_go :
    ∀ (l acc : List Char), acc ≠ [] →
      wordsAcc acc l =
        (acc.reverse ++ l.takeWhile (fun d => !isPyWs d)) ::
          words (l.dropWhile (fun d => !isPyWs d)) := by
  intro l
  induction l with
  | nil =>
    intro acc h
    simp [wordsAcc, words, h]
  | cons d rest ih =>
    intro acc h
    by_cases hd : isPyWs d
    · rw [show List.takeWhile (fun d => !isPyWs d) (d :: rest) = [] by
        simp [List.takeWhile_cons, hd]]
      rw [show List.dropWhile (fun d => !isPyWs d) (d :: rest) = d :: rest by
        simp [List.dropWhile_cons, hd]]
      rw [words_cons_ws rest hd, List.append_nil]
      simp [wordsAcc, hd, h, words]
    · have hd' : isPyWs d = false := Bool.eq_false_iff.mpr hd
      rw [show List.takeWhile (fun d => !isPyWs d) (d :: rest) =
          d :: List.takeWhile (fun d => !isPyWs d) rest by
        simp [List.takeWhile_cons, hd']]
      rw [show List.dropWhile (fun d => !isPyWs d) (d :: rest) =
          List.dropWhile (fun d => !isPyWs d) rest by
        simp [List.dropWhile_cons, hd']]
      rw [show wordsAcc acc (d :: rest) = wordsAcc (d :: acc) rest by
        simp [wordsAcc, hd']]
      rw [ih (d :: acc) (by simp)]
      simp

theorem words_cons_nonws {c : Char} (l : List Char) (h : isPyWs c = false) :
    words (c :: l) =
      (c :: l.takeWhile (fun d => !isPyWs d)) ::
        words (l.dropWhile (fun d => !isPyWs d)) := by
  rw [show words (c :: l) = wordsAcc [c] l by simp [words, wordsAcc, h]]
  rw [wordsAcc_go l [c] (by simp)]
  simp

theorem words_single :
    ∀ t : List Char, t ≠ [] → (∀ c ∈ t, isPyWs c = false) → words t = [t] := by
  intro t h hws
  match t with
  | c :: t' =>
    rw [words_cons_nonws t' (hws c (by simp))]
    rw [takeWhile_of_all t' (fun d hd => by simp [hws d (by simp [hd])])]
    rw [dropWhile_of_all t' (fun d hd => by simp [hws d (by simp [hd])])]
    rfl

theorem words_tok_space :
    ∀ (t r : List Char), t ≠ [] → (∀ c ∈ t, isPyWs c = false) →
      words (t ++ ' ' :: r) = t :: words r := by
  intro t r h hws
  match t with
  | c :: t' =>
    rw [List.cons_append, words_cons_nonws (t' ++ ' ' :: r) (hws c (by simp))]
    rw [takeWhile_append_of_all t' (' ' :: r) (fun d hd => by simp [hws d (by simp [hd])])]
    rw [dropWhile_append_of_all t' (' ' :: r) (fun d hd => by simp [hws d (by simp [hd])])]
    rw [show List.takeWhile (fun d => !isPyWs d) (' ' :: r) = [] by
      simp [List.takeWhile_cons, isPyWs]]
    rw [show List.dropWhile (fun d => !isPyWs d) (' ' :: r) = ' ' :: r by
      simp [List.dropWhile_cons, isPyWs]]
    rw [words_cons_ws r (by decide)]
    simp

theorem words_joinSp :
    ∀ ts : List (List Char),
      (∀ t ∈ ts, t ≠ [] ∧ ∀ c ∈ t, isPyWs c = false) →
      words (joinSp ts) = ts := by
  intro ts
  induction ts with
  | nil => intro _; rfl
  | cons t ts' ih =>
    intro h
    match ts' with
    | [] =>
      exact words_single t (h t (by simp)).1 (h t (by simp)).2
    | t2 :: ts'' =>
      rw [show joinSp (t :: t2 :: ts'') = t ++ ' ' :: joinSp (t2 :: ts'') from rfl]
      rw [words_tok_space t (joinSp (t2 :: ts'')) (h t (by simp)).1 (h t (by simp)).2]
      rw [ih fun u hu => h u (by simp [hu])]

theorem wordsAcc_sound :
    ∀ (l acc : List Char), (∀ c ∈ acc, isPyWs c = false) →
      ∀ t ∈ wordsAcc acc l,
        t ≠ [] ∧ (∀ c ∈ t, isPyWs c = false) ∧ (∀ c ∈ t, c ∈ acc ∨ c ∈ l) := by
  intro l
  induction l with
  | nil =>
    intro acc hacc t ht
    by_cases h : acc = []
    · simp [wordsAcc, h] at ht
    · simp only [wordsAcc, h, if_false] at ht
      simp only [List.mem_singleton] at ht
      subst ht
      refine ⟨by simp [h], ?_, ?_⟩
      · intro c hc; exact hacc c (List.mem_reverse.mp hc)
      · intro c hc; exact Or.inl (List.mem_reverse.mp hc)
  | cons d rest ih =>
    intro acc hacc t ht
    by_cases hd : isPyWs d
    · by_cases h : acc = []
      · subst h
        simp only [wordsAcc, hd, if_true] at ht
        obtain ⟨h1, h2, h3⟩ := ih [] (by simp) t ht
        exact ⟨h1, h2, fun c hc => by
          rcases h3 c hc with h' | h'
          · simp at h'
          · exact Or.inr (by simp [h'])⟩
      · simp only [wordsAcc, hd, if_true, h, if_false, List.mem_cons] at ht
        rcases ht with ht | ht
        · subst ht
          refine ⟨by simp [h], ?_, ?_⟩
          · intro c hc; exact hacc c (List.mem_reverse.mp hc)
          · intro c hc; exact Or.inl (List.mem_reverse.mp hc)
        · obtain ⟨h1, h2, h3⟩ := ih [] (by simp) t ht
          exact ⟨h1, h2, fun c hc => by
            rcases h3 c hc with h' | h'
            · simp at h'
            · exact Or.inr (by simp [h'])⟩
    · simp only [wordsAcc, hd, if_false] at ht
      have hd' : isPyWs d = false := by
        exact Bool.eq_false_iff.mpr hd
      obtain ⟨h1, h2, h3⟩ := ih (d :: acc)
        (fun c hc => by
          rcases List.mem_cons.mp hc with h' | h'
          · subst h'; exact hd'
          · exact hacc c h') t ht
      refine ⟨h1, h2, fun c hc => ?_⟩
      rcases h3 c hc with h' | h'
      · rcases List.mem_cons.mp h' with h'' | h''
        · subst h''; exact Or.inr (by simp)
        · exact Or.inl h''
      · exact Or.inr (by simp [h'])

theorem words_sound (l : List Char) :
    ∀ t ∈ words l, t ≠ [] ∧ (∀ c ∈ t, isPyWs c = false) ∧ (∀ c ∈ t, c ∈ l) := by
  intro t ht
  obtain ⟨h1, h2, h3⟩ := wordsAcc_sound l [] (by simp) t ht
  exact ⟨h1, h2, fun c hc => by
    rcases h3 c hc with h' | h'
    · simp at h'
    · exact h'⟩

/- ============================================================
   Lemmas about tag stripping, line splitting and joining
   ============================================================ -/

theorem stripTagsAux_chars :
    ∀ (l : List Char) (m : TagMode) (c : Char),
      c ∈ stripTagsAux m l → c ≠ '[' ∧ c ≠ '<' := by
  intro l
  induction l with
  | nil => intro m c hc; cases m <;> simp [stripTagsAux] at hc
  | cons d rest ih =>
    intro m c hc
    cases m with
    | text =>
      by_cases h1 : d = '['
      · simp only [stripTagsAux, h1, if_true] at hc
        exact ih .sq c hc
      · by_cases h2 : d = '<'
        · simp only [stripTagsAux, h1, if_false, h2, if_true] at hc
          exact ih .ang c hc
        · simp only [stripTagsAux, h1, if_false, h2, List.mem_cons] at hc
          rcases hc with hc | hc
          · subst hc; exact ⟨h1, h2⟩
          · exact ih .text c hc
    | sq =>
      by_cases h1 : d = ']'
      · simp only [stripTagsAux, h1, if_true] at hc
        exact ih .text c hc
      · simp only [stripTagsAux, h1, if_false] at hc
        exact ih .sq c hc
    | ang =>
      by_cases h1 : d = '>'
      · simp only [stripTagsAux, h1, if_true] at hc
        exact ih .text c hc
      · simp only [stripTagsAux, h1, if_false] at hc
        exact ih .ang c hc

theorem stripTags_id :
    ∀ l : List Char, (∀ c ∈ l, c ≠ '[' ∧ c ≠ '<') → stripTags l = l := by
  intro l h
  induction l with
  | nil => rfl
  | cons d rest ih =>
    have hd := h d (by simp)
    simp only [stripTags, stripTagsAux, hd.1, if_false, hd.2]
    simp only [List.cons.injEq, true_and]
    exact ih fun c hc => h c (by simp [hc])

theorem splitLines_single :
    ∀ l : List Char, (∀ c ∈ l, c ≠ '\n') → splitLines l = [l] := by
  intro l h
  induction l with
  | nil => rfl
  | cons d rest ih =>
    simp only [splitLines]
    rw [ih fun c hc => h c (by simp [hc])]
    simp [h d (by simp)]

theorem joinSp_chars :
    ∀ (ts : List (List Char)) (c : Char),
      c ∈ joinSp ts → (∃ t ∈ ts, c ∈ t) ∨ c = ' ' := by
  intro ts
  induction ts with
  | nil => intro c hc; simp [joinSp] at hc
  | cons t ts' ih =>
    intro c hc
    match ts' with
    | [] =>
      exact Or.inl ⟨t, by simp, hc⟩
    | t2 :: ts'' =>
      rw [show joinSp (t :: t2 :: ts'') = t ++ ' ' :: joinSp (t2 :: ts'') from rfl] at hc
      rcases List.mem_append.mp hc with hc | hc
      · exact Or.inl ⟨t, by simp, hc⟩
      · rcases List.mem_cons.mp hc with hc | hc
        · exact Or.inr hc
        · rcases ih c hc with ⟨u, hu, hcu⟩ | hc'
          · exact Or.inl ⟨u, by simp [hu], hcu⟩
          · exact Or.inr hc'

theorem cat_mem {α : Type} :
    ∀ (L : List (List α)) (x : α), x ∈ cat L ↔ ∃ y ∈ L, x ∈ y := by
  intro L x
  induction L with
  | nil => simp [cat]
  | cons y ys ih => simp [cat, List.mem_append, ih]

/- ============================================================
   Lemmas about pyStrip
   ============================================================ -/

theorem dropWhile_head_false {p : Char → Bool} :
    ∀ (l : List Char) (c : Char), (l.dropWhile p).head? = some c → p c = false := by
  intro l
  induction l with
  | nil => intro c hc; simp at hc
  | cons d rest ih =>
    intro c hc
    by_cases hd : p d
    · rw [List.dropWhile_cons, if_pos hd] at hc
      exact ih c hc
    · rw [List.dropWhile_cons, if_neg hd] at hc
      rw [List.head?_cons] at hc
      have heq : d = c := Option.some.inj hc
      subst heq
      exact Bool.eq_false_iff.mpr hd

theorem dropWhile_getLast {p : Char → Bool} :
    ∀ l : List Char, l.dropWhile p ≠ [] → (l.dropWhile p).getLast? = l.getLast? := by
  intro l h
  have hsplit : l.takeWhile p ++ l.dropWhile p = l := List.takeWhile_append_dropWhile p l
  conv_rhs => rw [← hsplit]
  rw [List.getLast?_append_of_ne_nil _ h]

theorem stripChars_head {c : Char} (l : List Char)
    (h : (stripChars l).head? = some c) : isPyWs c = false := by
  unfold stripChars at h
  set B := (l.dropWhile isPyWs).reverse.dropWhile isPyWs with hB
  have hne : B ≠ [] := by
    intro hB0
    rw [hB0] at h
    simp at h
  rw [List.head?_reverse] at h
  rw [dropWhile_getLast _ hne] at h
  rw [List.getLast?_reverse] at h
  exact dropWhile_head_false _ c h

theorem stripChars_getLast {c : Char} (l : List Char)
    (h : (stripChars l).getLast? = some c) : isPyWs c = false := by
  unfold stripChars at h
  rw [List.getLast?_reverse] at h
  exact dropWhile_head_false _ c h

/- ============================================================
   Idempotence of the caption normalizer
   ============================================================ -/

theorem dropLine_eq_false {t : List Char} {rest : List (List Char)} :
    dropLine (t :: rest) = false ↔
      ¬(t = "WEBVTT".toList ∨ t = "NOTE".toList ∨ t = "STYLE".toList
        ∨ arrowTok ∈ t :: rest ∨ (rest = [] ∧ t.all Char.isDigit = true)) := by
  simp only [dropLine, decide_eq_false_iff_not]

theorem keptLines_sound {l : List Char} {ts : List (List Char)} (h : ts ∈ keptLines l) :
    dropLine ts = false ∧ ∃ ln, ts = lineToks ln := by
  unfold keptLines at h
  obtain ⟨hmem, hfil⟩ := List.mem_filter.mp h
  refine ⟨by simpa using hfil, ?_⟩
  obtain ⟨ln, _, hln⟩ := List.mem_map.mp hmem
  exact ⟨ln, hln.symm⟩

theorem keptLines_tok_sound {l : List Char} {ts : List (List Char)} (h : ts ∈ keptLines l) :
    ∀ t ∈ ts, t ≠ [] ∧ ∀ c ∈ t, isPyWs c = false ∧ c ≠ '[' ∧ c ≠ '<' := by
  obtain ⟨-, ln, rfl⟩ := keptLines_sound h
  intro t ht
  obtain ⟨h1, h2, h3⟩ := words_sound (stripTags ln) t ht
  refine ⟨h1, fun c hc => ⟨h2 c hc, ?_⟩⟩
  exact stripTagsAux_chars ln .text c (h3 c hc)

theorem kept_ne_nil {l : List Char} {ts : List (List Char)} (h : ts ∈ keptLines l) :
    ts ≠ [] := by
  obtain ⟨hdrop, -⟩ := keptLines_sound h
  intro h0
  subst h0
  simp [dropLine] at hdrop

theorem arrow_not_in_kept {l : List Char} {ts : List (List Char)} (h : ts ∈ keptLines l) :
    arrowTok ∉ ts := by
  obtain ⟨hdrop, -⟩ := keptLines_sound h
  match ts with
  | [] => simp
  | t :: rest =>
    rw [dropLine_eq_false] at hdrop
    intro hmem
    exact hdrop (Or.inr (Or.inr (Or.inr (Or.inl hmem))))

theorem dedupAux_mem :
    ∀ (rest : List (List (List Char))) (prev ts' : List (List Char)),
      ts' ∈ dedupAux prev rest → ∃ ts ∈ rest, ∃ n, ts' = ts.drop n := by
  intro rest
  induction rest with
  | nil => intro prev ts' h; simp [dedupAux] at h
  | cons y r ih =>
    intro prev ts' h
    simp only [dedupAux, List.mem_cons] at h
    rcases h with h | h
    · by_cases hp : prev.isPrefixOf y
      · rw [if_pos hp] at h
        exact ⟨y, by simp, prev.length, h⟩
      · rw [if_neg hp] at h
        exact ⟨y, by simp, 0, by simp [h]⟩
    · obtain ⟨ts, hts, n, h'⟩ := ih y ts' h
      exact ⟨ts, by simp [hts], n, h'⟩

theorem dedupCues_mem {K : List (List (List Char))} {ts' : List (List Char)}
    (h : ts' ∈ dedupCues K) : ∃ ts ∈ K, ∃ n, ts' = ts.drop n := by
  match K with
  | [] => simp [dedupCues] at h
  | x :: rest =>
    simp only [dedupCues, List.mem_cons] at h
    rcases h with h | h
    · exact ⟨x, by simp, 0, by simp [h]⟩
    · obtain ⟨ts, hts, n, h'⟩ := dedupAux_mem rest x ts' h
      exact ⟨ts, by simp [hts], n, h'⟩

theorem allToks_sound {l : List Char} {t : List Char} (h : t ∈ allToks l) :
    t ≠ [] ∧ ∀ c ∈ t, isPyWs c = false ∧ c ≠ '[' ∧ c ≠ '<' := by
  unfold allToks at h
  obtain ⟨ts', hts', ht⟩ := (cat_mem _ _).mp h
  obtain ⟨ts, hts, n, rfl⟩ := dedupCues_mem hts'
  exact keptLines_tok_sound hts t (List.drop_subset n ts ht)

theorem allToks_arrow (l : List Char) : arrowTok ∉ allToks l := by
  intro h
  unfold allToks at h
  obtain ⟨ts', hts', ht⟩ := (cat_mem _ _).mp h
  obtain ⟨ts, hts, n, rfl⟩ := dedupCues_mem hts'
  exact arrow_not_in_kept hts (List.drop_subset n ts ht)

theorem allToks_keep (l : List Char) (h : allToks l ≠ []) :
    dropLine (allToks l) = false := by
  cases hk : keptLines l with
  | nil => exact absurd (by rw [allToks, hk]; rfl) h
  | cons k ks =>
    have hkmem : k ∈ keptLines l := by rw [hk]; exact List.mem_cons_self k ks
    obtain ⟨hkdrop, -⟩ := keptLines_sound hkmem
    have hkne : k ≠ [] := kept_ne_nil hkmem
    obtain ⟨t, kr, rfl⟩ : ∃ t kr, k = t :: kr := by
      cases k with
      | nil => exact absurd rfl hkne
      | cons a b => exact ⟨a, b, rfl⟩
    have hshape : allToks l = t :: (kr ++ cat (dedupAux (t :: kr) ks)) := by
      rw [allToks, hk]
      simp [dedupCues, cat]
    rw [hshape, dropLine_eq_false]
    rw [dropLine_eq_false] at hkdrop
    intro hor
    rcases hor with h1 | h2 | h3 | h4 | h5
    · exact hkdrop (Or.inl h1)
    · exact hkdrop (Or.inr (Or.inl h2))
    · exact hkdrop (Or.inr (Or.inr (Or.inl h3)))
    · exact absurd (by rw [hshape]; exact h4) (allToks_arrow l)
    · obtain ⟨hnil, hdig⟩ := h5
      obtain ⟨hkr, -⟩ := List.append_eq_nil.mp hnil
      subst hkr
      exact hkdrop (Or.inr (Or.inr (Or.inr (Or.inr ⟨rfl, hdig⟩))))

theorem cleanL_of_toks (ts : List (List Char))
    (hP : ∀ t ∈ ts, t ≠ [] ∧ ∀ c ∈ t, isPyWs c = false ∧ c ≠ '[' ∧ c ≠ '<')
    (hkeep : dropLine ts = false) :
    cleanL (joinSp ts) = joinSp ts := by
  have hchar : ∀ c ∈ joinSp ts, (isPyWs c = false ∨ c = ' ') ∧ c ≠ '[' ∧ c ≠ '<' := by
    intro c hc
    rcases joinSp_chars ts c hc with ⟨t, ht, hct⟩ | hsp
    · obtain ⟨-, h2⟩ := hP t ht
      exact ⟨Or.inl (h2 c hct).1, (h2 c hct).2.1, (h2 c hct).2.2⟩
    · subst hsp
      exact ⟨Or.inr rfl, by decide, by decide⟩
  have hnl : ∀ c ∈ joinSp ts, c ≠ '\n' := by
    intro c hc hne
    rcases (hchar c hc).1 with hw | hsp
    · rw [hne] at hw
      exact absurd hw (by decide)
    · rw [hne] at hsp
      exact absurd hsp (by decide)
  rw [cleanL, allToks, keptLines]
  rw [splitLines_single _ hnl]
  rw [show List.map lineToks [joinSp ts] = [lineToks (joinSp ts)] from rfl]
  rw [show lineToks (joinSp ts) = words (stripTags (joinSp ts)) from rfl]
  rw [stripTags_id _ fun c hc => ⟨(hchar c hc).2.1, (hchar c hc).2.2⟩]
  rw [words_joinSp ts fun t ht => ⟨(hP t ht).1, fun c hc => ((hP t ht).2 c hc).1⟩]
  rw [show List.filter (fun x => !dropLine x) [ts] = [ts] from by
    simp [List.filter, hkeep]]
  rw [show dedupCues [ts] = [ts] from rfl]
  rw [show cat [ts] = ts ++ [] from rfl, List.append_nil]

theorem cleanL_idem (l : List Char) : cleanL (cleanL l) = cleanL l := by
  by_cases h0 : allToks l = []
  · have hl : cleanL l = [] := by rw [cleanL, h0]; rfl
    rw [hl]
    rfl
  · rw [show cleanL l = joinSp (allToks l) from rfl]
    exact cleanL_of_toks (allToks l)
      (fun t ht => allToks_sound ht)
      (allToks_keep l h0)

/- ============================================================
   Lemmas about extract_video_id
   ============================================================ -/

theorem toList_mk (l : List Char) : (String.mk l).toList = l := rfl

theorem mk_toList (s : String) : String.mk s.toList = s := rfl

theorem capture11_self (t : List Char) (h1 : t.length = 11) (h2 : t.all isIdChar = true) :
    capture11 t = some t := by
  have htake : t.take 11 = t := by
    rw [← h1]
    exact List.take_length t
  unfold capture11
  rw [htake, if_pos ⟨h1, h2⟩]

theorem tryPrefixAt_bad (pre cs : List Char) (d : Char) (hd : d ∈ pre)
    (hbad : isIdChar d = false) (hcs : ∀ c ∈ cs, isIdChar c = true) :
    tryPrefixAt pre cs = none := by
  unfold tryPrefixAt
  rw [if_neg]
  intro heq
  have hmem : d ∈ cs.take pre.length := by rw [heq]; exact hd
  have : isIdChar d = true := hcs d (List.take_subset _ _ hmem)
  rw [hbad] at this
  exact absurd this (by decide)

theorem tryPrefixAt_head_ne (p0 : Char) (pre' : List Char) (c : Char) (rest : List Char)
    (h : c ≠ p0) : tryPrefixAt (p0 :: pre') (c :: rest) = none := by
  unfold tryPrefixAt
  rw [if_neg]
  intro heq
  rw [List.length_cons, List.take_succ_cons] at heq
  exact h (List.cons.inj heq).1

theorem pat1At_none_of_id (cs : List Char) (hcs : ∀ c ∈ cs, isIdChar c = true) :
    pat1At cs = none := by
  unfold pat1At
  rw [tryPrefixAt_bad ['v', '='] cs '=' (by decide) (by decide) hcs]
  rw [tryPrefixAt_bad ['/', 'v', '/'] cs '/' (by decide) (by decide) hcs]
  rw [tryPrefixAt_bad "youtu.be/".toList cs '.' (by decide) (by decide) hcs]

theorem pat2At_none_of_id (cs : List Char) (hcs : ∀ c ∈ cs, isIdChar c = true) :
    pat2At cs = none := by
  unfold pat2At
  rw [tryPrefixAt_bad "embed/".toList cs '/' (by decide) (by decide) hcs]

theorem searchAt_step (f : List Char → Option (List Char)) (c : Char) (rest : List Char)
    (h : f (c :: rest) = none) : searchAt f (c :: rest) = searchAt f rest := by
  simp [searchAt, h]

theorem searchAt_head (f : List Char → Option (List Char)) (l : List Char) (t : List Char)
    (h : f l = some t) : searchAt f l = some t := by
  cases l <;> simp [searchAt, h]

theorem searchAt_none_of_id (f : List Char → Option (List Char))
    (hf : ∀ cs, (∀ c ∈ cs, isIdChar c = true) → f cs = none) :
    ∀ l, (∀ c ∈ l, isIdChar c = true) → searchAt f l = none := by
  intro l
  induction l with
  | nil => intro h; exact hf [] h
  | cons c rest ih =>
    intro h
    rw [searchAt_step f c rest (hf (c :: rest) h)]
    exact ih fun d hd => h d (by simp [hd])

theorem pat1At_head_ne (c : Char) (rest : List Char)
    (h1 : c ≠ 'v') (h2 : c ≠ '/') (h3 : c ≠ 'y') : pat1At (c :: rest) = none := by
  unfold pat1At
  rw [tryPrefixAt_head_ne 'v' ['='] c rest h1]
  rw [tryPrefixAt_head_ne '/' ['v', '/'] c rest h2]
  rw [show ("youtu.be/".toList) = 'y' :: "outu.be/".toList from rfl]
  rw [tryPrefixAt_head_ne 'y' "outu.be/".toList c rest h3]

theorem tryPrefixAt_slash_v (tl : List Char) (h : ∀ c ∈ tl, isIdChar c = true) :
    tryPrefixAt ['/', 'v', '/'] ('/' :: tl) = none := by
  unfold tryPrefixAt
  rw [if_neg]
  intro heq
  rw [List.length_cons, List.length_cons, List.length_cons, List.length_nil,
    List.take_succ_cons] at heq
  have htl : tl.take 2 = ['v', '/'] := (List.cons.inj heq).2
  have hmem : '/' ∈ tl.take 2 := by rw [htl]; simp
  have : isIdChar '/' = true := h '/' (List.take_subset _ _ hmem)
  exact absurd this (by decide)

theorem pat1At_v_eq (tl : List Char) (h1 : tl.length = 11) (h2 : tl.all isIdChar = true) :
    pat1At ('v' :: '=' :: tl) = some tl := by
  unfold pat1At
  rw [show tryPrefixAt ['v', '='] ('v' :: '=' :: tl) = capture11 tl from by
    unfold tryPrefixAt
    rw [if_pos (by rfl)]
    rfl]
  rw [capture11_self tl h1 h2]

theorem pat1At_youtu_be (tl : List Char) (h1 : tl.length = 11) (h2 : tl.all isIdChar = true) :
    pat1At ("youtu.be/".toList ++ tl) = some tl := by
  unfold pat1At
  rw [show tryPrefixAt ['v', '='] ("youtu.be/".toList ++ tl) = none from by
    unfold tryPrefixAt
    rw [if_neg]
    intro heq
    exact absurd (List.cons.inj heq).1 (by decide)]
  rw [show tryPrefixAt ['/', 'v', '/'] ("youtu.be/".toList ++ tl) = none from by
    unfold tryPrefixAt
    rw [if_neg]
    intro heq
    exact absurd (List.cons.inj heq).1 (by decide)]
  rw [show tryPrefixAt "youtu.be/".toList ("youtu.be/".toList ++ tl) = capture11 tl from by
    unfold tryPrefixAt
    rw [if_pos (by rfl)]
    rfl]
  rw [capture11_self tl h1 h2]

theorem pat1At_slash_v_slash (tl : List Char) (h1 : tl.length = 11)
    (h2 : tl.all isIdChar = true) :
    pat1At ('/' :: 'v' :: '/' :: tl) = some tl := by
  unfold pat1At
  rw [show tryPrefixAt ['v', '='] ('/' :: 'v' :: '/' :: tl) = none from by
    unfold tryPrefixAt
    rw [if_neg]
    intro heq
    exact absurd (List.cons.inj heq).1 (by decide)]
  rw [show tryPrefixAt ['/', 'v', '/'] ('/' :: 'v' :: '/' :: tl) = capture11 tl from by
    unfold tryPrefixAt
    rw [if_pos (by rfl)]
    rfl]
  rw [capture11_self tl h1 h2]

theorem pat2At_embed (tl : List Char) (h1 : tl.length = 11) (h2 : tl.all isIdChar = true) :
    pat2At ("embed/".toList ++ tl) = some tl := by
  unfold pat2At
  rw [show tryPrefixAt "embed/".toList ("embed/".toList ++ tl) = capture11 tl from by
    unfold tryPrefixAt
    rw [if_pos (by rfl)]
    rfl]
  rw [capture11_self tl h1 h2]

theorem searchAt_pat1_embed (tl : List Char) (hid : ∀ c ∈ tl, isIdChar c = true) :
    searchAt pat1At ("embed/".toList ++ tl) = none := by
  rw [show "embed/".toList ++ tl = 'e' :: 'm' :: 'b' :: 'e' :: 'd' :: '/' :: tl from rfl]
  rw [searchAt_step _ _ _ (pat1At_head_ne 'e' _ (by decide) (by decide) (by decide))]
  rw [searchAt_step _ _ _ (pat1At_head_ne 'm' _ (by decide) (by decide) (by decide))]
  rw [searchAt_step _ _ _ (pat1At_head_ne 'b' _ (by decide) (by decide) (by decide))]
  rw [searchAt_step _ _ _ (pat1At_head_ne 'e' _ (by decide) (by decide) (by decide))]
  rw [searchAt_step _ _ _ (pat1At_head_ne 'd' _ (by decide) (by decide) (by decide))]
  rw [searchAt_step _ _ _ (show pat1At ('/' :: tl) = none from by
    unfold pat1At
    rw [tryPrefixAt_head_ne 'v' ['='] '/' tl (by decide)]
    rw [tryPrefixAt_slash_v tl hid]
    rw [show ("youtu.be/".toList) = 'y' :: "outu.be/".toList from rfl]
    rw [tryPrefixAt_head_ne 'y' "outu.be/".toList '/' tl (by decide)])]
  exact searchAt_none_of_id pat1At pat1At_none_of_id tl hid

example : extract_video_id "https://www.youtube.com/watch?v=dQw4w9WgXcQ" = some "dQw4w9WgXcQ" := by decide
example : extract_video_id "youtu.be/dQw4w9WgXcQ" = some "dQw4w9WgXcQ" := by decide
example : extract_video_id "dQw4w9WgXcQ" = some "dQw4w9WgXcQ" := by decide
example : extract_video_id "https://www.youtube.com/embed/dQw4w9WgXcQ" = some "dQw4w9WgXcQ" := by decide
example : extract_video_id "not a video" = none := by decide
example : clean_vtt_content "WEBVTT\n\n1\n00:00:01.000 --> 00:00:02.000\nhello <b>world</b>\n\n2\n00:00:02.000 --> 00:00:03.000\nhello world again now\n" = "hello world again now" := by decide

/- ============================================================
   Remaining helper lemmas for the endpoint proofs
   ============================================================ -/

/-- The stripped text has no leading or trailing whitespace character. -/
def noEdgeWs (s : String) : Prop :=
  (∀ c, s.toList.head? = some c → isPyWs c = false) ∧
  (∀ c, s.toList.getLast? = some c → isPyWs c = false)

theorem pyStrip_noEdge (s : String) : noEdgeWs (pyStrip s) := by
  constructor
  · intro c hc
    rw [pyStrip, toList_mk] at hc
    exact stripChars_head s.toList hc
  · intro c hc
    rw [pyStrip, toList_mk] at hc
    exact stripChars_getLast s.toList hc

theorem addFile_has (fs : FS) (p : String) : (addFile fs p).has p = true := by
  simp [addFile, FS.has]

theorem not_mem_cleanup (fs : FS) (p : String) :
    p ∉ (cleanupTemp (addFile fs p) p).files := by
  rw [cleanupTemp, if_pos (addFile_has fs p)]
  simp [removeFile, addFile, List.mem_filter]

/- ============================================================
   Claim theorems
   ============================================================ -/

/-- Claim C1, counterexample: a transcript-endpoint request whose
manual-caption fetch times out is not converted into the uniform
`success=false` response shape — the `subprocess.TimeoutExpired` raised by
the unguarded `subprocess.run` call propagates out of the endpoint, so the
claim "every failure of an external capability invocation is caught, no
raw process exception ever propagates" is false on the code. -/
theorem C1_counterexample :
    extract_youtube_transcript
      { url := "dQw4w9WgXcQ", language := "en", prefer_manual := true }
      { metaTitle := none, metaDuration := none, manualTimedOut := true, manualExit := 0,
        manualFile := none, autoTimedOut := false, autoExit := 0, autoFile := none } =
      Except.error "subprocess.TimeoutExpired" := by
  rfl

/-- Claim C1 (amended): for the yt-dlp transcript endpoint, invalid
references are caught and every caption-fetch completion — whatever its
exit code — yields the uniform response shape (`success=true`, or
`success=false` with an error message), provided neither caption-fetch
subprocess invocation raises a timeout; a caption-fetch timeout, however,
propagates as a raw exception. The whisper transcribe endpoint converts
every failure (temp-file, model-load or recognition exception) into the
uniform `success=false`-with-error shape and never propagates. -/
theorem C1_amended_no_propagation (req : YouTubeRequest) (env : TransEnv)
    (hm : env.manualTimedOut = false) (ha : env.autoTimedOut = false)
    (model : String) (lang : Option String) (wenv : WhisperEnv) (fs : FS) :
    (∃ r, extract_youtube_transcript req env = Except.ok r ∧
      (r.success = true ∨ r.error ≠ none)) ∧
    ((transcribe_audio model lang wenv fs).1.success = true ∨
      ((transcribe_audio model lang wenv fs).1.success = false ∧
        (transcribe_audio model lang wenv fs).1.error ≠ none)) := by
  constructor
  · unfold extract_youtube_transcript
    cases hv : extract_video_id req.url with
    | none => exact ⟨_, rfl, Or.inr (by simp)⟩
    | some vid =>
      have hauto : ∃ r, tryAutoStep req env vid = Except.ok r ∧
          (r.success = true ∨ r.error ≠ none) := by
        unfold tryAutoStep
        rw [ha]
        cases env.autoFile with
        | some doc => exact ⟨_, rfl, Or.inl rfl⟩
        | none => exact ⟨_, rfl, Or.inr (by simp)⟩
      by_cases hp : req.prefer_manual = true
      · cases hmf : env.manualFile with
        | some doc =>
          exact ⟨{ success := true, video_id := vid, title := env.metaTitle,
                   transcript := some (clean_vtt_content doc), source := some "manual",
                   language := req.language, duration := env.metaDuration, error := none },
                 by simp [hp, hm, hmf], Or.inl rfl⟩
        | none =>
          obtain ⟨r, hr, hok⟩ := hauto
          exact ⟨r, by simp [hp, hm, hmf, hr], hok⟩
      · obtain ⟨r, hr, hok⟩ := hauto
        exact ⟨r, by simp [Bool.eq_false_iff.mpr hp, hr], hok⟩
  · obtain ⟨tmp, cr, gm, tr⟩ := wenv
    cases cr with
    | failNoFile msg => exact Or.inr ⟨rfl, by simp [transcribe_audio, errResp]⟩
    | failWithFile msg => exact Or.inr ⟨rfl, by simp [transcribe_audio, errResp]⟩
    | ok =>
      cases gm with
      | raised msg => exact Or.inr ⟨rfl, by simp [transcribe_audio, errResp]⟩
      | ok u =>
        cases tr with
        | raised msg => exact Or.inr ⟨rfl, by simp [transcribe_audio, errResp]⟩
        | ok p => exact Or.inl rfl

/-- Claim C1 (amended), witness at a concrete input. -/
theorem C1_amended_witness :
    (TransEnv.manualTimedOut
        { metaTitle := none, metaDuration := none, manualTimedOut := false, manualExit := 0,
          manualFile := none, autoTimedOut := false, autoExit := 1, autoFile := none } = false) ∧
    (TransEnv.autoTimedOut
        { metaTitle := none, metaDuration := none, manualTimedOut := false, manualExit := 0,
          manualFile := none, autoTimedOut := false, autoExit := 1, autoFile := none } = false) ∧
    ((∃ r, extract_youtube_transcript
        { url := "dQw4w9WgXcQ", language := "en", prefer_manual := true }
        { metaTitle := none, metaDuration := none, manualTimedOut := false, manualExit := 0,
          manualFile := none, autoTimedOut := false, autoExit := 1, autoFile := none } =
          Except.ok r ∧ (r.success = true ∨ r.error ≠ none)) ∧
      ((transcribe_audio "base" none
          ⟨"/app/temp/u.mp3", CreateOutcome.ok, PyResult.ok (),
            PyResult.raised "bad audio"⟩ ⟨[]⟩).1.success = true ∨
        ((transcribe_audio "base" none
            ⟨"/app/temp/u.mp3", CreateOutcome.ok, PyResult.ok (),
              PyResult.raised "bad audio"⟩ ⟨[]⟩).1.success = false ∧
          (transcribe_audio "base" none
            ⟨"/app/temp/u.mp3", CreateOutcome.ok, PyResult.ok (),
              PyResult.raised "bad audio"⟩ ⟨[]⟩).1.error ≠ none))) :=
  ⟨rfl, rfl,
    C1_amended_no_propagation
      { url := "dQw4w9WgXcQ", language := "en", prefer_manual := true }
      { metaTitle := none, metaDuration := none, manualTimedOut := false, manualExit := 0,
        manualFile := none, autoTimedOut := false, autoExit := 1, autoFile := none }
      rfl rfl "base" none
      ⟨"/app/temp/u.mp3", CreateOutcome.ok, PyResult.ok (), PyResult.raised "bad audio"⟩
      ⟨[]⟩⟩

/-- Claim C2: with prefer_manual requested, a manual attempt that completes
but produces no caption file falls through (it is not a failure), and when
the auto attempt produces a caption file the endpoint returns
`success=true`, `source="auto-generated"`, and the transcript equal to the
normalization of the fetched auto-caption document. -/
theorem C2_auto_fallback (req : YouTubeRequest) (env : TransEnv) (vid doc : String)
    (hv : extract_video_id req.url = some vid)
    (hp : req.prefer_manual = true)
    (hmt : env.manualTimedOut = false) (hmf : env.manualFile = none)
    (hat : env.autoTimedOut = false) (haf : env.autoFile = some doc) :
    extract_youtube_transcript req env =
      Except.ok { success := true, video_id := vid, title := env.metaTitle,
                  transcript := some (clean_vtt_content doc), source := some "auto-generated",
                  language := req.language, duration := env.metaDuration, error := none } := by
  simp [extract_youtube_transcript, tryAutoStep, hv, hp, hmt, hmf, hat, haf]

/-- Claim C2, witness at a concrete input. -/
theorem C2_witness :
    extract_video_id "youtu.be/dQw4w9WgXcQ" = some "dQw4w9WgXcQ" ∧
    extract_youtube_transcript
      { url := "youtu.be/dQw4w9WgXcQ", language := "en", prefer_manual := true }
      { metaTitle := some "A Title", metaDuration := some 212, manualTimedOut := false,
        manualExit := 0, manualFile := none, autoTimedOut := false, autoExit := 0,
        autoFile := some "WEBVTT\n\n00:00:01.000 --> 00:00:02.000\nhello world\n" } =
      Except.ok { success := true, video_id := "dQw4w9WgXcQ", title := some "A Title",
                  transcript := some (clean_vtt_content
                    "WEBVTT\n\n00:00:01.000 --> 00:00:02.000\nhello world\n"),
                  source := some "auto-generated", language := "en", duration := some 212,
                  error := none } :=
  ⟨by decide,
    C2_auto_fallback
      { url := "youtu.be/dQw4w9WgXcQ", language := "en", prefer_manual := true }
      { metaTitle := some "A Title", metaDuration := some 212, manualTimedOut := false,
        manualExit := 0, manualFile := none, autoTimedOut := false, autoExit := 0,
        autoFile := some "WEBVTT\n\n00:00:01.000 --> 00:00:02.000\nhello world\n" }
      "dQw4w9WgXcQ" "WEBVTT\n\n00:00:01.000 --> 00:00:02.000\nhello world\n"
      (by decide) rfl rfl rfl rfl rfl⟩

/-- Claim C3: when both caption attempts complete but neither produces a
caption file, the endpoint returns `success=false` with a non-null error
message that points at the speech-recognition path. -/
theorem C3_no_captions (req : YouTubeRequest) (env : TransEnv) (vid : String)
    (hv : extract_video_id req.url = some vid)
    (hp : req.prefer_manual = true)
    (hmt : env.manualTimedOut = false) (hmf : env.manualFile = none)
    (hat : env.autoTimedOut = false) (haf : env.autoFile = none) :
    extract_youtube_transcript req env =
      Except.ok { success := false, video_id := vid, title := env.metaTitle,
                  transcript := none, source := none, language := req.language,
                  duration := env.metaDuration, error := some noSubsMsg } ∧
    noSubsMsg ≠ "" ∧
    strContains noSubsMsg "whisper-server" = true ∧
    strContains noSubsMsg "audio transcription" = true := by
  refine ⟨?_, by decide, by decide, by decide⟩
  simp [extract_youtube_transcript, tryAutoStep, hv, hp, hmt, hmf, hat, haf]

/-- Claim C3, witness at a concrete input. -/
theorem C3_witness :
    extract_video_id "https://www.youtube.com/watch?v=dQw4w9WgXcQ" = some "dQw4w9WgXcQ" ∧
    (extract_youtube_transcript
      { url := "https://www.youtube.com/watch?v=dQw4w9WgXcQ", language := "en",
        prefer_manual := true }
      { metaTitle := none, metaDuration := none, manualTimedOut := false, manualExit := 1,
        manualFile := none, autoTimedOut := false, autoExit := 1, autoFile := none } =
      Except.ok { success := false, video_id := "dQw4w9WgXcQ", title := none,
                  transcript := none, source := none, language := "en",
                  duration := none, error := some noSubsMsg } ∧
      noSubsMsg ≠ "" ∧
      strContains noSubsMsg "whisper-server" = true ∧
      strContains noSubsMsg "audio transcription" = true) :=
  ⟨by decide,
    C3_no_captions
      { url := "https://www.youtube.com/watch?v=dQw4w9WgXcQ", language := "en",
        prefer_manual := true }
      { metaTitle := none, metaDuration := none, manualTimedOut := false, manualExit := 1,
        manualFile := none, autoTimedOut := false, autoExit := 1, autoFile := none }
      "dQw4w9WgXcQ" (by decide) rfl rfl rfl rfl rfl⟩

/-- Claim C4: on the successful path, the transcript assembled by the
transcribe endpoints equals the segment texts each trimmed of
leading/trailing whitespace joined with single spaces
(`" ".join(strip(s))`), and each trimmed segment indeed carries no leading
or trailing whitespace character. -/
theorem C4_segment_join (model : String) (lang : Option String) (env : WhisperEnv)
    (ureq : TranscribeUrlRequest) (uenv : UrlEnv) (fs fs2 : FS)
    (segs : List String) (info : WhisperInfo) (ct body : String)
    (hc : env.create = CreateOutcome.ok) (hg : env.getModel = PyResult.ok ())
    (ht : env.transcribe = PyResult.ok (segs, info))
    (hud : uenv.download = PyResult.ok (ct, body))
    (huc : uenv.create = CreateOutcome.ok) (hug : uenv.getModel = PyResult.ok ())
    (hut : uenv.transcribe = PyResult.ok (segs, info)) :
    (transcribe_audio model lang env fs).1.transcript = some (assembleTranscript segs) ∧
    (transcribe_from_url ureq uenv fs2).1.transcript = some (assembleTranscript segs) ∧
    assembleTranscript segs = String.intercalate " " (segs.map pyStrip) ∧
    ∀ s ∈ segs, noEdgeWs (pyStrip s) := by
  refine ⟨?_, ?_, rfl, fun s _ => pyStrip_noEdge s⟩
  · simp [transcribe_audio, hc, hg, ht, okResp]
  · simp [transcribe_from_url, hud, huc, hug, hut, okResp]

/-- Claim C4, witness at a concrete input. -/
theorem C4_witness :
    (WhisperEnv.create
        ⟨"/app/temp/u.mp3", CreateOutcome.ok, PyResult.ok (),
          PyResult.ok ([" hello ", "world  "], ⟨"en", 1, 2⟩)⟩ = CreateOutcome.ok) ∧
    assembleTranscript [" hello ", "world  "] = "hello world" ∧
    ((transcribe_audio "base" none
        ⟨"/app/temp/u.mp3", CreateOutcome.ok, PyResult.ok (),
          PyResult.ok ([" hello ", "world  "], ⟨"en", 1, 2⟩)⟩ ⟨[]⟩).1.transcript =
        some (assembleTranscript [" hello ", "world  "]) ∧
      (transcribe_from_url ⟨"http://x/a.mp3", none, "base"⟩
        ⟨"/app/temp/v", PyResult.ok ("audio/mp3", "bytes"), CreateOutcome.ok,
          PyResult.ok (), PyResult.ok ([" hello ", "world  "], ⟨"en", 1, 2⟩)⟩ ⟨[]⟩).1.transcript =
        some (assembleTranscript [" hello ", "world  "]) ∧
      assembleTranscript [" hello ", "world  "] =
        String.intercalate " " ([" hello ", "world  "].map pyStrip) ∧
      ∀ s ∈ ([" hello ", "world  "] : List String), noEdgeWs (pyStrip s)) :=
  ⟨rfl, by decide,
    C4_segment_join "base" none
      ⟨"/app/temp/u.mp3", CreateOutcome.ok, PyResult.ok (),
        PyResult.ok ([" hello ", "world  "], ⟨"en", 1, 2⟩)⟩
      ⟨"http://x/a.mp3", none, "base"⟩
      ⟨"/app/temp/v", PyResult.ok ("audio/mp3", "bytes"), CreateOutcome.ok,
        PyResult.ok (), PyResult.ok ([" hello ", "world  "], ⟨"en", 1, 2⟩)⟩
      ⟨[]⟩ ⟨[]⟩ [" hello ", "world  "] ⟨"en", 1, 2⟩ "audio/mp3" "bytes"
      rfl rfl rfl rfl rfl rfl rfl⟩

/-- Claim C5: the caption normalization function is idempotent —
normalizing an already-normalized document returns it unchanged. -/
theorem C5_clean_vtt_idempotent (s : String) :
    clean_vtt_content (clean_vtt_content s) = clean_vtt_content s := by
  unfold clean_vtt_content
  rw [toList_mk, cleanL_idem]

/-- Claim C6: on a cache hit the audio endpoint returns the deterministic
cache path with `cached=true` without invoking the download capability;
on a miss it invokes the download with the 300-second timeout and, on
success, returns the same deterministic path with `cached=false`. -/
theorem C6_audio_cache (url : String) (env : AudioEnv) (fs : FS) (vid : String)
    (hv : extract_video_id url = some vid) :
    (fs.has (audioCachePath vid) = true →
      download_youtube_audio url env fs =
        (AudioResult.ok (audioCachePath vid) vid true, fs, none)) ∧
    (fs.has (audioCachePath vid) = false → env.dlTimedOut = false → env.dlExit = 0 →
      env.dlCreates = true →
      download_youtube_audio url env fs =
        (AudioResult.ok (audioCachePath vid) vid false,
          addFile fs (audioCachePath vid), some 300)) := by
  constructor
  · intro hhit
    simp [download_youtube_audio, hv, hhit]
  · intro hmiss hto hexit hcr
    simp [download_youtube_audio, hv, hmiss, hto, hcr, hexit, addFile_has]

/-- Claim C6, witness at a concrete input. -/
theorem C6_witness :
    extract_video_id "dQw4w9WgXcQ" = some "dQw4w9WgXcQ" ∧
    FS.has ⟨["/app/temp/dQw4w9WgXcQ.mp3"]⟩ (audioCachePath "dQw4w9WgXcQ") = true ∧
    download_youtube_audio "dQw4w9WgXcQ" ⟨false, 0, "", true⟩ ⟨["/app/temp/dQw4w9WgXcQ.mp3"]⟩ =
      (AudioResult.ok (audioCachePath "dQw4w9WgXcQ") "dQw4w9WgXcQ" true,
        ⟨["/app/temp/dQw4w9WgXcQ.mp3"]⟩, none) ∧
    FS.has ⟨[]⟩ (audioCachePath "dQw4w9WgXcQ") = false ∧
    download_youtube_audio "dQw4w9WgXcQ" ⟨false, 0, "", true⟩ ⟨[]⟩ =
      (AudioResult.ok (audioCachePath "dQw4w9WgXcQ") "dQw4w9WgXcQ" false,
        addFile ⟨[]⟩ (audioCachePath "dQw4w9WgXcQ"), some 300) :=
  ⟨by decide, by decide,
    (C6_audio_cache "dQw4w9WgXcQ" ⟨false, 0, "", true⟩ ⟨["/app/temp/dQw4w9WgXcQ.mp3"]⟩
      "dQw4w9WgXcQ" (by decide)).1 (by decide),
    by decide,
    (C6_audio_cache "dQw4w9WgXcQ" ⟨false, 0, "", true⟩ ⟨[]⟩
      "dQw4w9WgXcQ" (by decide)).2 (by decide) rfl rfl rfl⟩

/-- Claim C7, counterexample: when the global model slot is still
uninitialized, a request for the non-default size "small" (default "base")
initializes the shared global with the small instance, and the subsequent
default-size request is served an instance whose size is not the default —
so a non-default request can mutate the shared default. -/
theorem C7_counterexample :
    (get_whisper_model (some "small") none).2 = some ⟨"small"⟩ ∧
    ((get_whisper_model none ((get_whisper_model (some "small") none).2)).1).size ≠
      WHISPER_MODEL_SIZE := by
  constructor
  · rfl
  · decide

/-- Claim C7 (amended): provided the shared default instance is already
initialized, a request for a size different from the configured default is
served a fresh instance of the requested size, leaves the global slot
unchanged, a subsequent default-size request is still served by the
original instance, and no call whatsoever reassigns an initialized
global slot. -/
theorem C7_nondefault_preserves (s : String) (m : WhisperModel)
    (hs : s ≠ "") (hd : s ≠ WHISPER_MODEL_SIZE) :
    (get_whisper_model (some s) (some m)).1.size = s ∧
    (get_whisper_model (some s) (some m)).2 = some m ∧
    (get_whisper_model none ((get_whisper_model (some s) (some m)).2)).1 = m ∧
    ∀ o : Option String, (get_whisper_model o (some m)).2 = some m := by
  have h1 : (s != "") = true := bne_iff_ne.mpr hs
  have h2 : (s != WHISPER_MODEL_SIZE) = true := bne_iff_ne.mpr hd
  have hmain : get_whisper_model (some s) (some m) =
      (⟨s⟩, some m) := by
    unfold get_whisper_model
    simp [h1, h2, pyOrDefault, hs]
  refine ⟨by rw [hmain], by rw [hmain], by rw [hmain]; rfl, ?_⟩
  intro o
  cases o with
  | none => rfl
  | some s' =>
    cases hb : (s' != "" && s' != WHISPER_MODEL_SIZE) with
    | true => simp [get_whisper_model, hb]
    | false => simp [get_whisper_model, hb]

/-- Claim C7 (amended), witness at a concrete input. -/
theorem C7_witness :
    ("small" : String) ≠ "" ∧ ("small" : String) ≠ WHISPER_MODEL_SIZE ∧
    ((get_whisper_model (some "small") (some ⟨"base"⟩)).1.size = "small" ∧
      (get_whisper_model (some "small") (some ⟨"base"⟩)).2 = some ⟨"base"⟩ ∧
      (get_whisper_model none ((get_whisper_model (some "small") (some ⟨"base"⟩)).2)).1 =
        ⟨"base"⟩ ∧
      ∀ o : Option String, (get_whisper_model o (some ⟨"base"⟩)).2 = some ⟨"base"⟩) :=
  ⟨by decide, by decide,
    C7_nondefault_preserves "small" ⟨"base"⟩ (by decide) (by decide)⟩

/-- Claim C8: a transcription request whose recognition call raises is
answered with `success=false` and the (non-empty) exception message as the
error; the exception is converted, not propagated. -/
theorem C8_exception_caught (model : String) (lang : Option String) (env : WhisperEnv)
    (fs : FS) (msg : String)
    (hc : env.create = CreateOutcome.ok) (hg : env.getModel = PyResult.ok ())
    (ht : env.transcribe = PyResult.raised msg) (hmsg : msg ≠ "") :
    (transcribe_audio model lang env fs).1.success = false ∧
    (transcribe_audio model lang env fs).1.error = some msg ∧
    ∃ s, (transcribe_audio model lang env fs).1.error = some s ∧ s ≠ "" := by
  have hres : (transcribe_audio model lang env fs).1 = errResp model msg := by
    obtain ⟨tmp, cr, gm, tr⟩ := env
    simp only at hc hg ht
    subst hc
    subst hg
    subst ht
    rfl
  rw [hres]
  exact ⟨rfl, rfl, msg, rfl, hmsg⟩

/-- Claim C8, witness at a concrete input. -/
theorem C8_witness :
    (WhisperEnv.create
        ⟨"/app/temp/u.mp3", CreateOutcome.ok, PyResult.ok (),
          PyResult.raised "corrupt audio"⟩ = CreateOutcome.ok) ∧
    ("corrupt audio" : String) ≠ "" ∧
    ((transcribe_audio "base" none
        ⟨"/app/temp/u.mp3", CreateOutcome.ok, PyResult.ok (),
          PyResult.raised "corrupt audio"⟩ ⟨[]⟩).1.success = false ∧
      (transcribe_audio "base" none
        ⟨"/app/temp/u.mp3", CreateOutcome.ok, PyResult.ok (),
          PyResult.raised "corrupt audio"⟩ ⟨[]⟩).1.error = some "corrupt audio" ∧
      ∃ s, (transcribe_audio "base" none
        ⟨"/app/temp/u.mp3", CreateOutcome.ok, PyResult.ok (),
          PyResult.raised "corrupt audio"⟩ ⟨[]⟩).1.error = some s ∧ s ≠ "") :=
  ⟨rfl, by decide,
    C8_exception_caught "base" none
      ⟨"/app/temp/u.mp3", CreateOutcome.ok, PyResult.ok (), PyResult.raised "corrupt audio"⟩
      ⟨[]⟩ "corrupt audio" rfl rfl rfl (by decide)⟩

/-- Claim C9: the temporary file created for an uploaded request is absent
from the filesystem when the request completes, on every exit path
(success, caught failure, or failure before the file existed). -/
theorem C9_temp_deleted (model : String) (lang : Option String) (env : WhisperEnv) (fs : FS)
    (hfresh : env.tmpName ∉ fs.files) :
    env.tmpName ∉ ((transcribe_audio model lang env fs).2).files := by
  obtain ⟨tmp, cr, gm, tr⟩ := env
  simp only at hfresh
  cases cr with
  | failNoFile msg => exact hfresh
  | failWithFile msg => exact not_mem_cleanup fs tmp
  | ok =>
    cases gm with
    | raised msg => exact not_mem_cleanup fs tmp
    | ok u =>
      cases tr with
      | raised msg => exact not_mem_cleanup fs tmp
      | ok p => exact not_mem_cleanup fs tmp

/-- Claim C9, witness at a concrete input. -/
theorem C9_witness :
    ("/app/temp/u.mp3" : String) ∉ FS.files ⟨["/app/temp/other.mp3"]⟩ ∧
    ("/app/temp/u.mp3" : String) ∉
      ((transcribe_audio "base" none
        ⟨"/app/temp/u.mp3", CreateOutcome.ok, PyResult.ok (),
          PyResult.ok (["hi"], ⟨"en", 1, 2⟩)⟩ ⟨["/app/temp/other.mp3"]⟩).2).files :=
  ⟨by decide,
    C9_temp_deleted "base" none
      ⟨"/app/temp/u.mp3", CreateOutcome.ok, PyResult.ok (), PyResult.ok (["hi"], ⟨"en", 1, 2⟩)⟩
      ⟨["/app/temp/other.mp3"]⟩ (by decide)⟩

/-- Claim C10: for every 11-character token over `[A-Za-z0-9_-]`,
`extract_video_id` returns exactly that token on each accepted surface
form containing it: the query-parameter form `v=token`, the short-link
form `youtu.be/token`, the path-segment form `/v/token`, the embed form
`embed/token`, and the bare token itself. -/
theorem C10_extract_forms (t : String)
    (h1 : t.toList.length = 11) (h2 : t.toList.all isIdChar = true) :
    extract_video_id ("v=" ++ t) = some t ∧
    extract_video_id ("youtu.be/" ++ t) = some t ∧
    extract_video_id ("/v/" ++ t) = some t ∧
    extract_video_id ("embed/" ++ t) = some t ∧
    extract_video_id t = some t := by
  have hid : ∀ c ∈ t.toList, isIdChar c = true := fun c hc => by
    have := List.all_eq_true.mp h2 c hc
    simpa using this
  refine ⟨?_, ?_, ?_, ?_, ?_⟩
  · unfold extract_video_id
    rw [show ("v=" ++ t).toList = 'v' :: '=' :: t.toList from rfl]
    rw [searchAt_head _ _ _ (pat1At_v_eq t.toList h1 h2)]
    rfl
  · unfold extract_video_id
    rw [show ("youtu.be/" ++ t).toList = "youtu.be/".toList ++ t.toList from rfl]
    rw [searchAt_head _ _ _ (pat1At_youtu_be t.toList h1 h2)]
    rfl
  · unfold extract_video_id
    rw [show ("/v/" ++ t).toList = '/' :: 'v' :: '/' :: t.toList from rfl]
    rw [searchAt_head _ _ _ (pat1At_slash_v_slash t.toList h1 h2)]
    rfl
  · unfold extract_video_id
    rw [show ("embed/" ++ t).toList = "embed/".toList ++ t.toList from rfl]
    rw [searchAt_pat1_embed t.toList hid]
    rw [searchAt_head _ _ _ (pat2At_embed t.toList h1 h2)]
    rfl
  · unfold extract_video_id
    rw [searchAt_none_of_id pat1At pat1At_none_of_id t.toList hid]
    rw [searchAt_none_of_id pat2At pat2At_none_of_id t.toList hid]
    unfold pat3
    rw [if_pos ⟨h1, h2⟩]
    rfl

/-- Claim C10, witness at a concrete input. -/
theorem C10_witness :
    ("dQw4w9WgXcQ" : String).toList.length = 11 ∧
    ("dQw4w9WgXcQ" : String).toList.all isIdChar = true ∧
    (extract_video_id ("v=" ++ "dQw4w9WgXcQ") = some "dQw4w9WgXcQ" ∧
      extract_video_id ("youtu.be/" ++ "dQw4w9WgXcQ") = some "dQw4w9WgXcQ" ∧
      extract_video_id ("/v/" ++ "dQw4w9WgXcQ") = some "dQw4w9WgXcQ" ∧
      extract_video_id ("embed/" ++ "dQw4w9WgXcQ") = some "dQw4w9WgXcQ" ∧
      extract_video_id "dQw4w9WgXcQ" = some "dQw4w9WgXcQ") :=
  ⟨by decide, by decide, C10_extract_forms "dQw4w9WgXcQ" (by decide) (by decide)⟩
